import Mathlib

/-!
# go-segments: a tracing facade over the New Relic Go agent

Shallow embedding of `segments.go`.

* Go pointers that the code tests against `nil` (`r *http.Request`,
  `*http.Response`) are `Option` values.
* Go `interface{}` values (context keys and context values) are the type
  `Interface`; equality of two such values is Go's `==` on interfaces: same
  dynamic type and same value.
* The New Relic agent is an external collaborator.  It is modelled as a
  recording backend: every call into it appends one `Event` to the trace of
  the `World` and returns a handle.  "No backend call" is "the world is
  unchanged".
* A handler may panic; `Outcome` records how a call to `ServeHTTP` ended.
-/

namespace newrelic

/-- Handle of one in-flight transaction (`newrelic.Transaction`). -/
structure Transaction where
  id : Nat
  deriving DecidableEq, Repr

/-- Handle of the agent application (`newrelic.Application`). -/
structure Application where
  id : Nat
  deriving DecidableEq, Repr

/-- Configuration value built by `newrelic.NewConfig(appname, license)`. -/
structure Config where
  AppName : String
  License : String
  deriving DecidableEq, Repr

/-- A non-nil Go `error` returned by the agent. -/
structure Error where
  msg : String
  deriving DecidableEq, Repr

/-- Markers of type `newrelic.DatastoreProduct`. -/
inductive DatastoreProduct
  | Unset
  | MySQL
  | Postgres
  | Redis
  | Memcached
  | MongoDB
  deriving DecidableEq, Repr

/-- Token returned by `StartSegmentNow`: the transaction it was taken from and
the backend clock value at that moment. -/
structure SegmentStartTime where
  txn : Transaction
  stamp : Nat
  deriving DecidableEq, Repr

/-- Constructor `newrelic.NewConfig`. -/
def NewConfig (appname license : String) : Config :=
  { AppName := appname, License := license }

end newrelic

/-- A Go `interface{}` value, as far as the code can tell such values apart:
by `==` (used by `context.Context.Value` on keys) and by the type assertion
`.(newrelic.Transaction)`. -/
inductive Interface
  | nil
  | str (s : String)
  | int (n : Int)
  | defined (typeName : String) (repr : String)
  | txn (t : newrelic.Transaction)
  deriving DecidableEq, Repr

namespace Interface

/-- Type assertion `v.(newrelic.Transaction)` in its two-result form: `some t`
is `(t, true)`, `none` is `(nil, false)`.  It succeeds exactly on values whose
dynamic type implements the transaction interface. -/
def assertTransaction : Interface → Option newrelic.Transaction
  | .txn t => some t
  | _ => none

end Interface

namespace context

/-- A `context.Context`: the empty background context, or a parent extended by
one key/value pair (`context.WithValue`). -/
inductive Context
  | background
  | withValue (parent : Context) (key : Interface) (val : Interface)
  deriving DecidableEq, Repr

/-- Function `context.WithValue(parent, key, val)`. -/
def WithValue (parent : Context) (key val : Interface) : Context :=
  .withValue parent key val

/-- Method `ctx.Value(key)`: the value of the innermost pair whose key is `==`
to `key`, and `nil` when there is none. -/
def Context.Value : Context → Interface → Interface
  | .background, _ => .nil
  | .withValue parent k v, key => if k = key then v else parent.Value key

/-- Some pair of the context is stored under `key`. -/
def Context.Binds : Context → Interface → Bool
  | .background, _ => false
  | .withValue parent k _, key => decide (k = key) || parent.Binds key

end context

namespace http

/-- The part of `url.URL` the code reads. -/
structure URL where
  Path : String
  deriving DecidableEq, Repr

/-- An `http.Request`.  Inbound and outbound requests always carry a URL; `ctx`
is the request's context (`background` when none was attached). -/
structure Request where
  Method : String
  URL : URL
  ctx : context.Context
  deriving DecidableEq, Repr

/-- Method `r.Context()`. -/
def Request.Context (r : Request) : context.Context := r.ctx

/-- Method `r.WithContext(ctx)`: a copy of `r` with its context replaced. -/
def Request.WithContext (r : Request) (ctx : context.Context) : Request :=
  { r with ctx := ctx }

/-- An `http.Response`. -/
structure Response where
  StatusCode : Nat
  Body : String
  deriving DecidableEq, Repr

/-- Handle of an `http.ResponseWriter`. -/
structure ResponseWriter where
  id : Nat
  deriving DecidableEq, Repr

end http

namespace newrelic

/-- Struct `newrelic.DatastoreSegment`; fields the code does not set keep their
zero value. -/
structure DatastoreSegment where
  StartTime : SegmentStartTime
  Product : DatastoreProduct := .Unset
  Collection : String := ""
  Operation : String := ""
  ParameterizedQuery : String := ""
  QueryParameters : List (String × Interface) := []
  deriving DecidableEq, Repr

/-- Struct `newrelic.ExternalSegment`. -/
structure ExternalSegment where
  StartTime : SegmentStartTime
  Request : Option http.Request := none
  Response : Option http.Response := none
  deriving DecidableEq, Repr

/-- Struct `newrelic.Segment`. -/
structure Segment where
  StartTime : SegmentStartTime
  Name : String := ""
  deriving DecidableEq, Repr

end newrelic

/-- One observable effect: a call into the agent, a write to a response writer,
or the invocation of a recording handler. -/
inductive Event
  | startTransaction (app : newrelic.Application) (name : String)
      (w : http.ResponseWriter) (r : http.Request) (txn : newrelic.Transaction)
  | txnEnd (txn : newrelic.Transaction)
  | txnAddAttribute (txn : newrelic.Transaction) (key value : String)
  | startSegmentNow (txn : newrelic.Transaction)
  | datastoreSegmentEnd (s : newrelic.DatastoreSegment)
  | externalSegmentEnd (s : newrelic.ExternalSegment)
  | segmentEnd (s : newrelic.Segment)
  | writeHeader (w : http.ResponseWriter) (status : Nat)
  | serveHTTP (w : http.ResponseWriter) (r : http.Request)
  deriving DecidableEq, Repr

/-- State threaded through the program: the trace of effects so far and the
backend counter from which handles and time stamps are drawn. -/
structure World where
  trace : List Event
  fresh : Nat
  deriving DecidableEq, Repr

/-- Append one event to the trace. -/
def World.emit (σ : World) (e : Event) : World :=
  { σ with trace := σ.trace ++ [e] }

/-- The event is the start of a transaction. -/
def Event.isStartTransaction : Event → Bool
  | .startTransaction _ _ _ _ _ => true
  | _ => false

namespace newrelic

/-- Method `app.StartTransaction(name, w, r)`: the backend hands out a fresh
transaction handle. -/
def Application.StartTransaction (app : Application) (name : String)
    (w : http.ResponseWriter) (r : http.Request) (σ : World) : Transaction × World :=
  let txn : Transaction := ⟨σ.fresh⟩
  (txn, { trace := σ.trace ++ [.startTransaction app name w r txn], fresh := σ.fresh + 1 })

/-- Method `txn.End()`. -/
def Transaction.End (txn : Transaction) (σ : World) : World :=
  σ.emit (.txnEnd txn)

/-- Method `txn.AddAttribute(key, value)`. -/
def Transaction.AddAttribute (txn : Transaction) (key value : String) (σ : World) : World :=
  σ.emit (.txnAddAttribute txn key value)

/-- Function `newrelic.StartSegmentNow(txn)`. -/
def StartSegmentNow (txn : Transaction) (σ : World) : SegmentStartTime × World :=
  ({ txn := txn, stamp := σ.fresh },
   { trace := σ.trace ++ [.startSegmentNow txn], fresh := σ.fresh + 1 })

/-- Function `newrelic.StartExternalSegment(txn, request)`: an external segment
started now on `txn` for the outbound request, with no response yet. -/
def StartExternalSegment (txn : Transaction) (request : Option http.Request) (σ : World) :
    ExternalSegment × World :=
  let p := StartSegmentNow txn σ
  ({ StartTime := p.1, Request := request, Response := none }, p.2)

/-- Function `newrelic.StartSegment(txn, name)`. -/
def StartSegment (txn : Transaction) (name : String) (σ : World) : Segment × World :=
  let p := StartSegmentNow txn σ
  ({ StartTime := p.1, Name := name }, p.2)

/-- Method `End()` of `newrelic.DatastoreSegment`: reports the span as it is. -/
def DatastoreSegment.End (s : DatastoreSegment) (σ : World) : World :=
  σ.emit (.datastoreSegmentEnd s)

/-- Method `End()` of `newrelic.ExternalSegment`: reports the span as it is. -/
def ExternalSegment.End (s : ExternalSegment) (σ : World) : World :=
  σ.emit (.externalSegmentEnd s)

/-- Method `End()` of `newrelic.Segment`: reports the span as it is. -/
def Segment.End (s : Segment) (σ : World) : World :=
  σ.emit (.segmentEnd s)

end newrelic

namespace http

/-- How a call to `ServeHTTP` ended. -/
inductive Outcome
  | returned
  | panicked (v : String)
  deriving DecidableEq, Repr

/-- An `http.Handler`. -/
structure Handler where
  ServeHTTP : ResponseWriter → Request → World → Outcome × World

end http

namespace segments

/-- Struct `NopSegment`. -/
structure NopSegment where
  deriving DecidableEq, Repr

/-- Struct `NewrelicApplication`. -/
structure NewrelicApplication where
  newrelic : newrelic.Application
  deriving DecidableEq, Repr

/-- Struct `NewrelicDatastoreSegment`. -/
structure NewrelicDatastoreSegment where
  s : newrelic.DatastoreSegment
  deriving DecidableEq, Repr

/-- Struct `NewrelicExternalSegment`. -/
structure NewrelicExternalSegment where
  s : newrelic.ExternalSegment
  deriving DecidableEq, Repr

/-- Struct `NewrelicSegment`. -/
structure NewrelicSegment where
  s : newrelic.Segment
  deriving DecidableEq, Repr

/-- The `Segment` interface: a value of one of the four implementing struct
types.  The structs are stored in the interface by value. -/
inductive Segment
  | nop (n : NopSegment)
  | datastore (n : NewrelicDatastoreSegment)
  | external (n : NewrelicExternalSegment)
  | generic (n : NewrelicSegment)
  deriving DecidableEq, Repr

/-- Method `func (NopSegment) End() {}`. -/
def NopSegment.End (_n : NopSegment) (σ : World) : World := σ

/-- Method `func (NopSegment) SetResponse(*http.Response) {}`: the receiver copy
at the end of the body. -/
def NopSegment.SetResponse (n : NopSegment) (_r : Option http.Response) : NopSegment := n

/-- Function `NewNewrelicApplication(name, key)`.  `NewApplication` is the
agent's `newrelic.NewApplication`, returning an application and an error of
which at most the error matters when it is non-nil. -/
def NewNewrelicApplication
    (NewApplication : newrelic.Config → newrelic.Application × Option newrelic.Error)
    (name key : String) : Option NewrelicApplication × Option newrelic.Error :=
  let (nr, err) := NewApplication (newrelic.NewConfig name key)
  match err with
  | some e => (none, some e)
  | none => (some { newrelic := nr }, none)

/-- Method `(app *NewrelicApplication) Handler(next)`.  The deferred `txn.End()`
runs when the function literal returns and also when `next` panics; the panic
then continues to the caller. -/
def NewrelicApplication.Handler (app : NewrelicApplication) (next : http.Handler) :
    http.Handler :=
  { ServeHTTP := fun w r σ =>
      let (txn, σ₁) := app.newrelic.StartTransaction r.URL.Path w r σ
      let ctx := context.WithValue r.Context (.str "newrelicTransaction") (.txn txn)
      let r := r.WithContext ctx
      let (out, σ₂) := next.ServeHTTP w r σ₁
      (out, txn.End σ₂) }

/-- Method `func (n NewrelicDatastoreSegment) End()`. -/
def NewrelicDatastoreSegment.End (n : NewrelicDatastoreSegment) (σ : World) : World :=
  n.s.End σ

/-- Method `func (n NewrelicDatastoreSegment) SetResponse(*http.Response) {}`:
the receiver copy at the end of the body. -/
def NewrelicDatastoreSegment.SetResponse (n : NewrelicDatastoreSegment)
    (_r : Option http.Response) : NewrelicDatastoreSegment := n

/-- Function `StartDatabaseSegment(r, table, operation)`. -/
def StartDatabaseSegment (r : Option http.Request) (table operation : String) (σ : World) :
    Segment × World :=
  match r with
  | none => (.nop {}, σ)
  | some r =>
    let ctx := r.Context
    match (ctx.Value (.str "newrelicTransaction")).assertTransaction with
    | none => (.nop {}, σ)
    | some newrelicTransaction =>
      let (st, σ₁) := newrelic.StartSegmentNow newrelicTransaction σ
      (.datastore { s := {
          StartTime := st
          Product := .Postgres
          Collection := table
          Operation := operation } }, σ₁)

/-- Function `StartRedisSegment(r, operation, key)`. -/
def StartRedisSegment (r : Option http.Request) (operation key : String) (σ : World) :
    Segment × World :=
  match r with
  | none => (.nop {}, σ)
  | some r =>
    let ctx := r.Context
    match (ctx.Value (.str "newrelicTransaction")).assertTransaction with
    | none => (.nop {}, σ)
    | some newrelicTransaction =>
      let (st, σ₁) := newrelic.StartSegmentNow newrelicTransaction σ
      (.datastore { s := {
          StartTime := st
          Product := .Redis
          Operation := operation
          ParameterizedQuery := operation ++ " " ++ key
          QueryParameters := [("key", .str key)] } }, σ₁)

/-- Method `func (n NewrelicExternalSegment) End()`. -/
def NewrelicExternalSegment.End (n : NewrelicExternalSegment) (σ : World) : World :=
  n.s.End σ

/-- Method `func (n NewrelicExternalSegment) SetResponse(r *http.Response)` with
body `n.s.Response = r`.  The receiver `n` is passed by value and its field `s`
is a struct, not a pointer, so the assignment changes the callee's own copy;
the result is that copy at the end of the body. -/
def NewrelicExternalSegment.SetResponse (n : NewrelicExternalSegment)
    (r : Option http.Response) : NewrelicExternalSegment :=
  { n with s := { n.s with Response := r } }

/-- Function `StartExternalSegment(r, req)`. -/
def StartExternalSegment (r : Option http.Request) (req : Option http.Request) (σ : World) :
    Segment × World :=
  match r with
  | none => (.nop {}, σ)
  | some r =>
    let ctx := r.Context
    match (ctx.Value (.str "newrelicTransaction")).assertTransaction with
    | none => (.nop {}, σ)
    | some newrelicTransaction =>
      let (s, σ₁) := newrelic.StartExternalSegment newrelicTransaction req σ
      (.external { s := s }, σ₁)

/-- Method `func (n NewrelicSegment) End()`. -/
def NewrelicSegment.End (n : NewrelicSegment) (σ : World) : World :=
  n.s.End σ

/-- Method `func (n NewrelicSegment) SetResponse(r *http.Response) {}`: the
receiver copy at the end of the body. -/
def NewrelicSegment.SetResponse (n : NewrelicSegment) (_r : Option http.Response) :
    NewrelicSegment := n

/-- Function `StartSegment(r, name)`. -/
def StartSegment (r : Option http.Request) (name : String) (σ : World) : Segment × World :=
  match r with
  | none => (.nop {}, σ)
  | some r =>
    let ctx := r.Context
    match (ctx.Value (.str "newrelicTransaction")).assertTransaction with
    | none => (.nop {}, σ)
    | some newrelicTransaction =>
      let (s, σ₁) := newrelic.StartSegment newrelicTransaction name σ
      (.generic { s := s }, σ₁)

/-- Function `AddAttribute(r, key, value)`. -/
def AddAttribute (r : Option http.Request) (key value : String) (σ : World) : World :=
  match r with
  | none => σ
  | some r =>
    let ctx := r.Context
    match (ctx.Value (.str "newrelicTransaction")).assertTransaction with
    | none => σ
    | some newrelicTransaction => newrelicTransaction.AddAttribute key value σ

/-- Call `seg.End()` through the `Segment` interface: dispatch on the dynamic
type of the held value. -/
def Segment.End (seg : Segment) (σ : World) : World :=
  match seg with
  | .nop n => n.End σ
  | .datastore n => n.End σ
  | .external n => n.End σ
  | .generic n => n.End σ

/-- Call `seg.SetResponse(resp)` through the `Segment` interface.  All four
methods have value receivers: the method runs on a copy of the value held by
`seg`, the copy is dropped when the method returns, and the caller keeps `seg`
as it was.  The result is the caller's segment after the call and the world. -/
def Segment.SetResponse (seg : Segment) (resp : Option http.Response) (σ : World) :
    Segment × World :=
  match seg with
  | .nop n => let _callee := n.SetResponse resp; (seg, σ)
  | .datastore n => let _callee := n.SetResponse resp; (seg, σ)
  | .external n => let _callee := n.SetResponse resp; (seg, σ)
  | .generic n => let _callee := n.SetResponse resp; (seg, σ)

/-- The backend external segment held by a segment value, if it is the
external variant. -/
def Segment.heldExternal : Segment → Option newrelic.ExternalSegment
  | .external n => some n.s
  | _ => none

/-- The segment is the `NopSegment{}` value. -/
def Segment.isNop : Segment → Bool
  | .nop _ => true
  | _ => false

/-- The key under which `Handler` stores the transaction and the five lookups
read it: the plain Go string `"newrelicTransaction"`. -/
abbrev contextKey : Interface := .str "newrelicTransaction"

/-- A handler that records its invocation and returns. -/
def recorder : http.Handler :=
  { ServeHTTP := fun w r σ => (.returned, σ.emit (.serveHTTP w r)) }

/-- A handler that writes the given status and returns. -/
def statusWriter (status : Nat) : http.Handler :=
  { ServeHTTP := fun w _ σ => (.returned, σ.emit (.writeHeader w status)) }

/-- A handler that panics with the given value. -/
def panicker (v : String) : http.Handler :=
  { ServeHTTP := fun _ _ σ => (.panicked v, σ) }

/-! ### Concrete inputs used to exercise the theorems -/

/-- A world in which nothing has happened yet. -/
def startWorld : World := { trace := [], fresh := 0 }

/-- An inbound request with an empty context. -/
def plainRequest : http.Request :=
  { Method := "GET", URL := { Path := "/orders" }, ctx := .background }

/-- An inbound request whose context holds a string under the context key. -/
def wrongTypeRequest : http.Request :=
  { Method := "GET", URL := { Path := "/orders" },
    ctx := context.WithValue .background (.str "newrelicTransaction") (.str "yes") }

/-- An inbound request whose context carries transaction `0` under the
context key. -/
def tracedRequest : http.Request :=
  { Method := "GET", URL := { Path := "/orders" },
    ctx := context.WithValue .background (.str "newrelicTransaction") (.txn ⟨0⟩) }

/-- The world right after transaction `0` was started for `plainRequest`. -/
def tracedWorld : World :=
  { trace := [.startTransaction ⟨0⟩ "/orders" ⟨0⟩ plainRequest ⟨0⟩], fresh := 1 }

/-- An outbound request to another service. -/
def outboundRequest : http.Request :=
  { Method := "GET", URL := { Path := "/inventory" }, ctx := .background }

/-- A response received for the outbound request. -/
def sampleResponse : http.Response := { StatusCode := 200, Body := "ok" }

/-- A request that never went through `Handler`: another package stored its
own transaction-like value under the plain string key `"newrelicTransaction"`. -/
def foreignRequest : http.Request :=
  { Method := "POST", URL := { Path := "/jobs" },
    ctx := context.WithValue
      (context.WithValue .background (.str "requestID") (.str "r-1"))
      (.str "newrelicTransaction") (.txn ⟨7⟩) }

/-- A request whose binding under the plain string key is not the outermost
one: a string was stored under `"newrelicTransaction"`, and later a
transaction-like value was stored under a key of a defined type that is
spelled the same. -/
def layeredRequest : http.Request :=
  { Method := "GET", URL := { Path := "/orders" },
    ctx := context.WithValue
      (context.WithValue .background (.str "newrelicTransaction") (.str "yes"))
      (.defined "otherpkg.ctxKey" "newrelicTransaction") (.txn ⟨9⟩) }

/-- An agent constructor that rejects configurations with an empty license. -/
def strictAgent (cfg : newrelic.Config) : newrelic.Application × Option newrelic.Error :=
  if cfg.License = "" then (⟨0⟩, some ⟨"license required"⟩) else (⟨1⟩, none)

end segments

/-! ## Auxiliary facts about contexts and type assertions -/

namespace context

/-- Looking up a key under which nothing is stored gives `nil`. -/
theorem Context.Value_eq_nil_of_not_Binds (c : Context) (key : Interface)
    (h : c.Binds key = false) : c.Value key = .nil := by
  induction c with
  | background => rfl
  | withValue parent k v ih =>
    simp only [Context.Binds, Bool.or_eq_false_iff, decide_eq_false_iff_not] at h
    simp only [Context.Value, if_neg h.1]
    exact ih h.2

/-- A lookup right after `WithValue` under the same key gives the stored value. -/
theorem Context.Value_WithValue_same (c : Context) (key val : Interface) :
    (WithValue c key val).Value key = val := by
  simp [WithValue, Context.Value]

/-- A pair stored under another key does not change the lookup. -/
theorem Context.Value_WithValue_other (c : Context) (k key val : Interface) (h : k ≠ key) :
    (WithValue c k val).Value key = c.Value key := by
  simp [WithValue, Context.Value, h]

end context

namespace Interface

/-- The type assertion fails exactly on values that are not transactions. -/
theorem assertTransaction_eq_none_iff (v : Interface) :
    v.assertTransaction = none ↔ ∀ t, v ≠ .txn t := by
  cases v <;> simp [assertTransaction]

/-- The type assertion succeeds with `t` exactly on the value holding `t`. -/
theorem assertTransaction_eq_some_iff (v : Interface) (t : newrelic.Transaction) :
    v.assertTransaction = some t ↔ v = .txn t := by
  cases v <;> simp [assertTransaction]

end Interface

namespace segments

/-- The lookup of the five entry points fails when the context holds no
transaction under the key, be it absent or of another type. -/
theorem lookup_none_of_absent_or_wrong_type (r : http.Request)
    (h : r.Context.Binds contextKey = false ∨
         (r.Context.Binds contextKey = true ∧ ∀ t, r.Context.Value contextKey ≠ .txn t)) :
    (r.Context.Value (.str "newrelicTransaction")).assertTransaction = none := by
  rcases h with h | ⟨_, h⟩
  · rw [context.Context.Value_eq_nil_of_not_Binds _ _ h]; rfl
  · exact (Interface.assertTransaction_eq_none_iff _).2 h

/-- With a transaction in the context, `StartDatabaseSegment` builds the
Postgres datastore segment. -/
theorem StartDatabaseSegment_of_txn (r : http.Request) (txn : newrelic.Transaction)
    (table operation : String) (σ : World)
    (h : r.Context.Value (.str "newrelicTransaction") = .txn txn) :
    StartDatabaseSegment (some r) table operation σ
      = (.datastore { s := { StartTime := (newrelic.StartSegmentNow txn σ).1
                             Product := .Postgres
                             Collection := table
                             Operation := operation
                             ParameterizedQuery := ""
                             QueryParameters := [] } },
         (newrelic.StartSegmentNow txn σ).2) := by
  simp only [StartDatabaseSegment, h, Interface.assertTransaction]

/-- With a transaction in the context, `StartRedisSegment` builds the Redis
datastore segment. -/
theorem StartRedisSegment_of_txn (r : http.Request) (txn : newrelic.Transaction)
    (operation key : String) (σ : World)
    (h : r.Context.Value (.str "newrelicTransaction") = .txn txn) :
    StartRedisSegment (some r) operation key σ
      = (.datastore { s := { StartTime := (newrelic.StartSegmentNow txn σ).1
                             Product := .Redis
                             Collection := ""
                             Operation := operation
                             ParameterizedQuery := operation ++ " " ++ key
                             QueryParameters := [("key", .str key)] } },
         (newrelic.StartSegmentNow txn σ).2) := by
  simp only [StartRedisSegment, h, Interface.assertTransaction]

/-- With a transaction in the context, `StartExternalSegment` wraps the
backend external segment. -/
theorem StartExternalSegment_of_txn (r : http.Request) (txn : newrelic.Transaction)
    (req : Option http.Request) (σ : World)
    (h : r.Context.Value (.str "newrelicTransaction") = .txn txn) :
    StartExternalSegment (some r) req σ
      = (.external { s := (newrelic.StartExternalSegment txn req σ).1 },
         (newrelic.StartExternalSegment txn req σ).2) := by
  simp only [StartExternalSegment, h, Interface.assertTransaction]

/-- With a transaction in the context, `StartSegment` wraps the backend
segment. -/
theorem StartSegment_of_txn (r : http.Request) (txn : newrelic.Transaction)
    (name : String) (σ : World)
    (h : r.Context.Value (.str "newrelicTransaction") = .txn txn) :
    StartSegment (some r) name σ
      = (.generic { s := (newrelic.StartSegment txn name σ).1 },
         (newrelic.StartSegment txn name σ).2) := by
  simp only [StartSegment, h, Interface.assertTransaction]

/-- With a transaction in the context, `AddAttribute` is the backend call. -/
theorem AddAttribute_of_txn (r : http.Request) (txn : newrelic.Transaction)
    (key value : String) (σ : World)
    (h : r.Context.Value (.str "newrelicTransaction") = .txn txn) :
    AddAttribute (some r) key value σ = txn.AddAttribute key value σ := by
  simp only [AddAttribute, h, Interface.assertTransaction]

/-! ## C1: nil request -/

/-- C1: each of the four constructors, called with a nil request, returns
`NopSegment` and leaves the world (hence the backend) untouched, whatever the
other arguments; `End()` and `SetResponse(resp)` on `NopSegment` leave the
world and the segment untouched for every `resp`, nil included. -/
theorem nil_request_returns_NopSegment (table operation key name : String)
    (req : Option http.Request) (resp : Option http.Response) (σ : World) :
    StartDatabaseSegment none table operation σ = (.nop {}, σ)
    ∧ StartRedisSegment none operation key σ = (.nop {}, σ)
    ∧ StartExternalSegment none req σ = (.nop {}, σ)
    ∧ StartSegment none name σ = (.nop {}, σ)
    ∧ (Segment.nop {}).End σ = σ
    ∧ (Segment.nop {}).SetResponse resp σ = (.nop {}, σ)
    ∧ (Segment.nop {}).SetResponse none σ = (.nop {}, σ) :=
  ⟨rfl, rfl, rfl, rfl, rfl, rfl, rfl⟩

/-! ## C2: no transaction in the context -/

/-- C2: for a non-nil request whose context has nothing under the context key,
or has there a value that is not a transaction, each of the four constructors
returns `NopSegment` and leaves the world untouched (no backend call). -/
theorem no_transaction_returns_NopSegment (r : http.Request)
    (table operation key name : String) (req : Option http.Request) (σ : World)
    (h : r.Context.Binds contextKey = false ∨
         (r.Context.Binds contextKey = true ∧ ∀ t, r.Context.Value contextKey ≠ .txn t)) :
    StartDatabaseSegment (some r) table operation σ = (.nop {}, σ)
    ∧ StartRedisSegment (some r) operation key σ = (.nop {}, σ)
    ∧ StartExternalSegment (some r) req σ = (.nop {}, σ)
    ∧ StartSegment (some r) name σ = (.nop {}, σ) := by
  have hl := lookup_none_of_absent_or_wrong_type r h
  refine ⟨?_, ?_, ?_, ?_⟩
  · simp only [StartDatabaseSegment, hl]
  · simp only [StartRedisSegment, hl]
  · simp only [StartExternalSegment, hl]
  · simp only [StartSegment, hl]

/-- Witness of C2: an empty context, and a context holding a string under the
key. -/
theorem no_transaction_returns_NopSegment_witness :
    (plainRequest.Context.Binds contextKey = false
      ∧ StartDatabaseSegment (some plainRequest) "users" "SELECT" startWorld
          = (.nop {}, startWorld)
      ∧ StartRedisSegment (some plainRequest) "GET" "user:42" startWorld
          = (.nop {}, startWorld)
      ∧ StartExternalSegment (some plainRequest) (some outboundRequest) startWorld
          = (.nop {}, startWorld)
      ∧ StartSegment (some plainRequest) "render" startWorld = (.nop {}, startWorld))
    ∧ (wrongTypeRequest.Context.Value contextKey = .str "yes"
      ∧ StartDatabaseSegment (some wrongTypeRequest) "users" "SELECT" startWorld
          = (.nop {}, startWorld)
      ∧ StartRedisSegment (some wrongTypeRequest) "GET" "user:42" startWorld
          = (.nop {}, startWorld)
      ∧ StartExternalSegment (some wrongTypeRequest) (some outboundRequest) startWorld
          = (.nop {}, startWorld)
      ∧ StartSegment (some wrongTypeRequest) "render" startWorld = (.nop {}, startWorld)) :=
  ⟨⟨rfl, no_transaction_returns_NopSegment plainRequest "users" "SELECT" "user:42" "render"
      (some outboundRequest) startWorld (Or.inl rfl)⟩,
   ⟨rfl, no_transaction_returns_NopSegment wrongTypeRequest "users" "SELECT" "user:42" "render"
      (some outboundRequest) startWorld (Or.inr ⟨rfl, by intro t h; cases h⟩)⟩⟩

/-! ## C3: the transaction is ended exactly once -/

/-- C3: running `Handler(next)` first starts one transaction (one
`startTransaction` event, on a fresh handle), then runs `next`, then appends
exactly one `End()` on that handle after everything `next` did, and hands on
the outcome of `next`; this for every `next`, in particular one that returns
normally, one that writes an error status and one that panics. -/
theorem Handler_ends_transaction_exactly_once (app : NewrelicApplication)
    (next : http.Handler) (w : http.ResponseWriter) (r : http.Request) (σ : World) :
    ∃ (txn : newrelic.Transaction) (σ₁ σ₂ : World) (r' : http.Request) (out : http.Outcome),
      app.newrelic.StartTransaction r.URL.Path w r σ = (txn, σ₁)
      ∧ σ₁.trace = σ.trace ++ [.startTransaction app.newrelic r.URL.Path w r txn]
      ∧ (σ₁.trace.filter Event.isStartTransaction).length
          = (σ.trace.filter Event.isStartTransaction).length + 1
      ∧ r' = r.WithContext (context.WithValue r.Context contextKey (.txn txn))
      ∧ next.ServeHTTP w r' σ₁ = (out, σ₂)
      ∧ (app.Handler next).ServeHTTP w r σ = (out, txn.End σ₂)
      ∧ (txn.End σ₂).trace = σ₂.trace ++ [.txnEnd txn]
      ∧ (txn.End σ₂).trace.count (.txnEnd txn) = σ₂.trace.count (.txnEnd txn) + 1
      ∧ (∀ status, (app.Handler (statusWriter status)).ServeHTTP w r σ
            = (.returned, { trace := σ.trace ++
                [.startTransaction app.newrelic r.URL.Path w r txn,
                 .writeHeader w status, .txnEnd txn], fresh := σ.fresh + 1 }))
      ∧ (∀ v, (app.Handler (panicker v)).ServeHTTP w r σ
            = (.panicked v, { trace := σ.trace ++
                [.startTransaction app.newrelic r.URL.Path w r txn,
                 .txnEnd txn], fresh := σ.fresh + 1 })) := by
  refine ⟨⟨σ.fresh⟩, (app.newrelic.StartTransaction r.URL.Path w r σ).2,
    (next.ServeHTTP w (r.WithContext (context.WithValue r.Context contextKey (.txn ⟨σ.fresh⟩)))
      (app.newrelic.StartTransaction r.URL.Path w r σ).2).2,
    r.WithContext (context.WithValue r.Context contextKey (.txn ⟨σ.fresh⟩)),
    (next.ServeHTTP w (r.WithContext (context.WithValue r.Context contextKey (.txn ⟨σ.fresh⟩)))
      (app.newrelic.StartTransaction r.URL.Path w r σ).2).1, rfl, rfl, ?_, rfl, rfl, rfl, rfl,
    ?_, ?_, ?_⟩
  · simp [newrelic.Application.StartTransaction, List.filter_append, Event.isStartTransaction]
  · simp [newrelic.Transaction.End, World.emit, List.count_append]
  · intro status
    simp [NewrelicApplication.Handler, statusWriter, newrelic.Application.StartTransaction,
      newrelic.Transaction.End, World.emit]
  · intro v
    simp [NewrelicApplication.Handler, panicker, newrelic.Application.StartTransaction,
      newrelic.Transaction.End, World.emit]

/-! ## C4: the request handed to `next` carries the transaction -/

/-- C4: `Handler(next)` calls `next` once, with the same writer `w` and with the
request `r'` that is `r` with the started transaction stored under the context
key; that transaction was started with name `r.URL.Path`, writer `w` and
request `r`.  A recording `next` sees exactly one invocation, with `w` and
`r'`.  With `r'` each of the four constructors returns a real segment bound to
that transaction, and `AddAttribute` writes to that transaction. -/
theorem Handler_passes_transaction_in_context (app : NewrelicApplication)
    (next : http.Handler) (w : http.ResponseWriter) (r : http.Request) (σ : World) :
    ∃ (txn : newrelic.Transaction) (σ₁ : World) (r' : http.Request),
      app.newrelic.StartTransaction r.URL.Path w r σ = (txn, σ₁)
      ∧ σ₁.trace = σ.trace ++ [.startTransaction app.newrelic r.URL.Path w r txn]
      ∧ r' = r.WithContext (context.WithValue r.Context contextKey (.txn txn))
      ∧ r'.Context.Value contextKey = .txn txn
      ∧ r'.Method = r.Method ∧ r'.URL = r.URL
      ∧ (app.Handler next).ServeHTTP w r σ
          = ((next.ServeHTTP w r' σ₁).1, txn.End (next.ServeHTTP w r' σ₁).2)
      ∧ ((app.Handler recorder).ServeHTTP w r σ).2.trace
          = σ.trace ++ [.startTransaction app.newrelic r.URL.Path w r txn,
                        .serveHTTP w r', .txnEnd txn]
      ∧ (∀ (table operation : String) (τ : World),
          ∃ n, StartDatabaseSegment (some r') table operation τ
                = (.datastore n, (newrelic.StartSegmentNow txn τ).2)
              ∧ n.s.StartTime.txn = txn)
      ∧ (∀ (operation key : String) (τ : World),
          ∃ n, StartRedisSegment (some r') operation key τ
                = (.datastore n, (newrelic.StartSegmentNow txn τ).2)
              ∧ n.s.StartTime.txn = txn)
      ∧ (∀ (req : Option http.Request) (τ : World),
          ∃ n, StartExternalSegment (some r') req τ
                = (.external n, (newrelic.StartExternalSegment txn req τ).2)
              ∧ n.s.StartTime.txn = txn)
      ∧ (∀ (name : String) (τ : World),
          ∃ n, StartSegment (some r') name τ
                = (.generic n, (newrelic.StartSegment txn name τ).2)
              ∧ n.s.StartTime.txn = txn)
      ∧ (∀ (key value : String) (τ : World),
          AddAttribute (some r') key value τ = txn.AddAttribute key value τ
          ∧ (AddAttribute (some r') key value τ).trace
              = τ.trace ++ [.txnAddAttribute txn key value]) := by
  have hv : (r.WithContext (context.WithValue r.Context contextKey
      (.txn ⟨σ.fresh⟩))).Context.Value (.str "newrelicTransaction") = .txn ⟨σ.fresh⟩ :=
    context.Context.Value_WithValue_same _ _ _
  refine ⟨⟨σ.fresh⟩, (app.newrelic.StartTransaction r.URL.Path w r σ).2,
    r.WithContext (context.WithValue r.Context contextKey (.txn ⟨σ.fresh⟩)),
    rfl, rfl, rfl, hv, rfl, rfl, rfl, ?_, ?_, ?_, ?_, ?_, ?_⟩
  · simp [NewrelicApplication.Handler, recorder, newrelic.Application.StartTransaction,
      newrelic.Transaction.End, World.emit]
  · intro table operation τ
    exact ⟨_, StartDatabaseSegment_of_txn _ _ table operation τ hv, rfl⟩
  · intro operation key τ
    exact ⟨_, StartRedisSegment_of_txn _ _ operation key τ hv, rfl⟩
  · intro req τ
    exact ⟨_, StartExternalSegment_of_txn _ _ req τ hv, rfl⟩
  · intro name τ
    exact ⟨_, StartSegment_of_txn _ _ name τ hv, rfl⟩
  · intro key value τ
    exact ⟨AddAttribute_of_txn _ _ key value τ hv,
      by rw [AddAttribute_of_txn _ _ key value τ hv]; rfl⟩

/-! ## C5: real segments and their `End()` -/

/-- C5: for a non-nil request whose context carries the transaction `txn`
under the context key, `StartDatabaseSegment` returns a datastore segment with
product Postgres, collection `table`, operation `operation` and a start time
taken from `txn`; `StartSegment` wraps the backend segment started on `txn`
with that name; `StartExternalSegment` wraps the backend segment started on
`txn` with that outbound request; and one `End()` on the segment returned by
any of the four constructors appends exactly one backend `End` event carrying
that segment. -/
theorem constructors_with_transaction (r : http.Request) (txn : newrelic.Transaction)
    (table operation key name : String) (req : Option http.Request) (σ τ : World)
    (h : r.Context.Value contextKey = .txn txn) :
    (StartDatabaseSegment (some r) table operation σ
        = (.datastore { s := { StartTime := (newrelic.StartSegmentNow txn σ).1
                               Product := .Postgres
                               Collection := table
                               Operation := operation
                               ParameterizedQuery := ""
                               QueryParameters := [] } },
           (newrelic.StartSegmentNow txn σ).2)
      ∧ (newrelic.StartSegmentNow txn σ).1.txn = txn
      ∧ (newrelic.StartSegmentNow txn σ).2.trace = σ.trace ++ [.startSegmentNow txn])
    ∧ (StartSegment (some r) name σ
        = (.generic { s := (newrelic.StartSegment txn name σ).1 },
           (newrelic.StartSegment txn name σ).2)
      ∧ (newrelic.StartSegment txn name σ).1.Name = name
      ∧ (newrelic.StartSegment txn name σ).1.StartTime.txn = txn)
    ∧ (StartExternalSegment (some r) req σ
        = (.external { s := (newrelic.StartExternalSegment txn req σ).1 },
           (newrelic.StartExternalSegment txn req σ).2)
      ∧ (newrelic.StartExternalSegment txn req σ).1.Request = req
      ∧ (newrelic.StartExternalSegment txn req σ).1.StartTime.txn = txn)
    ∧ (∃ n, (StartDatabaseSegment (some r) table operation σ).1 = .datastore n
          ∧ ((StartDatabaseSegment (some r) table operation σ).1.End τ).trace
              = τ.trace ++ [.datastoreSegmentEnd n.s])
    ∧ (∃ n, (StartRedisSegment (some r) operation key σ).1 = .datastore n
          ∧ ((StartRedisSegment (some r) operation key σ).1.End τ).trace
              = τ.trace ++ [.datastoreSegmentEnd n.s])
    ∧ (∃ n, (StartExternalSegment (some r) req σ).1 = .external n
          ∧ ((StartExternalSegment (some r) req σ).1.End τ).trace
              = τ.trace ++ [.externalSegmentEnd n.s])
    ∧ (∃ n, (StartSegment (some r) name σ).1 = .generic n
          ∧ ((StartSegment (some r) name σ).1.End τ).trace
              = τ.trace ++ [.segmentEnd n.s]) := by
  have hv : r.Context.Value (.str "newrelicTransaction") = .txn txn := h
  refine ⟨⟨StartDatabaseSegment_of_txn r txn table operation σ hv, rfl, rfl⟩,
    ⟨StartSegment_of_txn r txn name σ hv, rfl, rfl⟩,
    ⟨StartExternalSegment_of_txn r txn req σ hv, rfl, rfl⟩, ?_, ?_, ?_, ?_⟩
  · rw [StartDatabaseSegment_of_txn r txn table operation σ hv]; exact ⟨_, rfl, rfl⟩
  · rw [StartRedisSegment_of_txn r txn operation key σ hv]; exact ⟨_, rfl, rfl⟩
  · rw [StartExternalSegment_of_txn r txn req σ hv]; exact ⟨_, rfl, rfl⟩
  · rw [StartSegment_of_txn r txn name σ hv]; exact ⟨_, rfl, rfl⟩

/-- Witness of C5: the request carrying transaction `0`. -/
theorem constructors_with_transaction_witness :
    tracedRequest.Context.Value contextKey = .txn ⟨0⟩
    ∧ StartDatabaseSegment (some tracedRequest) "users" "SELECT" tracedWorld
        = (.datastore { s := { StartTime := { txn := ⟨0⟩, stamp := 1 }
                               Product := .Postgres
                               Collection := "users"
                               Operation := "SELECT" } },
           { trace := tracedWorld.trace ++ [.startSegmentNow ⟨0⟩], fresh := 2 }) :=
  ⟨rfl, (constructors_with_transaction tracedRequest ⟨0⟩ "users" "SELECT" "user:42" "render"
      (some outboundRequest) tracedWorld tracedWorld rfl).1.1⟩

/-! ## C6: the Redis segment -/

/-- C6: for a non-nil request whose context carries the transaction `txn`,
`StartRedisSegment(r, operation, key)` returns a datastore segment with product
Redis, operation `operation`, parameterized query `operation ++ " " ++ key`
(the characters of `operation`, one space, the characters of `key`) and a
query-parameter map with the single entry `"key"` to `key`; `"GET"` and
`"user:42"` give `"GET user:42"` and `[("key", "user:42")]`. -/
theorem StartRedisSegment_metadata (r : http.Request) (txn : newrelic.Transaction)
    (operation key : String) (σ : World)
    (h : r.Context.Value contextKey = .txn txn) :
    ∃ n, StartRedisSegment (some r) operation key σ
          = (.datastore n, (newrelic.StartSegmentNow txn σ).2)
      ∧ n.s.Product = .Redis
      ∧ n.s.Operation = operation
      ∧ n.s.ParameterizedQuery = operation ++ " " ++ key
      ∧ n.s.ParameterizedQuery.data = operation.data ++ [' '] ++ key.data
      ∧ n.s.QueryParameters = [("key", .str key)]
      ∧ n.s.QueryParameters.length = 1
      ∧ n.s.StartTime.txn = txn
      ∧ (operation = "GET" → key = "user:42" →
          n.s.ParameterizedQuery = "GET user:42"
          ∧ n.s.QueryParameters = [("key", .str "user:42")]) := by
  refine ⟨_, StartRedisSegment_of_txn r txn operation key σ h, rfl, rfl, rfl, ?_, rfl, rfl, rfl, ?_⟩
  · simp [String.data_append]
  · rintro rfl rfl
    exact ⟨show "GET" ++ " " ++ "user:42" = "GET user:42" by decide, rfl⟩

/-- Witness of C6: `GET user:42` on the request carrying transaction `0`. -/
theorem StartRedisSegment_metadata_witness :
    tracedRequest.Context.Value contextKey = .txn ⟨0⟩
    ∧ ∃ n, StartRedisSegment (some tracedRequest) "GET" "user:42" tracedWorld
          = (.datastore n, { trace := tracedWorld.trace ++ [.startSegmentNow ⟨0⟩], fresh := 2 })
        ∧ n.s.ParameterizedQuery = "GET user:42"
        ∧ n.s.QueryParameters = [("key", .str "user:42")] := by
  refine ⟨rfl, ?_⟩
  obtain ⟨n, hn, _, _, _, _, _, _, _, hget⟩ :=
    StartRedisSegment_metadata tracedRequest ⟨0⟩ "GET" "user:42" tracedWorld rfl
  exact ⟨n, hn, hget rfl rfl⟩

/-! ## C7: `SetResponse` on the external segment -/

/-- Calling `SetResponse` through the interface never changes the caller's
segment nor the world. -/
theorem Segment.SetResponse_eq (seg : Segment) (resp : Option http.Response) (σ : World) :
    seg.SetResponse resp σ = (seg, σ) := by
  cases seg <;> rfl

/-- C7, evaluated: on the external segment returned for the request carrying
transaction `0`, the callee's copy does get the response, but the segment the
caller holds still has a nil `Response` after `SetResponse(sampleResponse)`,
and the following `End()` reports the span with a nil response. -/
theorem SetResponse_external_leaves_response_nil :
    (StartExternalSegment (some tracedRequest) (some outboundRequest) tracedWorld).1
        = .external { s := { StartTime := { txn := ⟨0⟩, stamp := 1 }
                             Request := some outboundRequest
                             Response := none } }
    ∧ (NewrelicExternalSegment.SetResponse
          { s := { StartTime := { txn := ⟨0⟩, stamp := 1 }
                   Request := some outboundRequest
                   Response := none } } (some sampleResponse)).s.Response
        = some sampleResponse
    ∧ (((StartExternalSegment (some tracedRequest) (some outboundRequest) tracedWorld).1.SetResponse
          (some sampleResponse)
          (StartExternalSegment (some tracedRequest) (some outboundRequest) tracedWorld).2).1.heldExternal.map
            (fun s => s.Response)) = some none
    ∧ ((((StartExternalSegment (some tracedRequest) (some outboundRequest) tracedWorld).1.SetResponse
          (some sampleResponse)
          (StartExternalSegment (some tracedRequest) (some outboundRequest) tracedWorld).2).1.End
        ((StartExternalSegment (some tracedRequest) (some outboundRequest) tracedWorld).1.SetResponse
          (some sampleResponse)
          (StartExternalSegment (some tracedRequest) (some outboundRequest) tracedWorld).2).2).trace
        = tracedWorld.trace ++
            [.startSegmentNow ⟨0⟩,
             .externalSegmentEnd { StartTime := { txn := ⟨0⟩, stamp := 1 }
                                   Request := some outboundRequest
                                   Response := none }]) := by
  refine ⟨?_, rfl, ?_, ?_⟩
  · rw [StartExternalSegment_of_txn tracedRequest ⟨0⟩ (some outboundRequest) tracedWorld rfl]
    rfl
  · rw [Segment.SetResponse_eq,
      StartExternalSegment_of_txn tracedRequest ⟨0⟩ (some outboundRequest) tracedWorld rfl]
    rfl
  · rw [Segment.SetResponse_eq,
      StartExternalSegment_of_txn tracedRequest ⟨0⟩ (some outboundRequest) tracedWorld rfl]
    rfl

/-! ## C8: `AddAttribute` -/

/-- C8: if the request is non-nil and its context carries the transaction `txn`
under the context key, `AddAttribute(r, key, value)` makes exactly one backend
call, `txn.AddAttribute(key, value)` with the same key and value; if the
request is nil, or its context has nothing or a value of another type under
the key, `AddAttribute` leaves the world untouched. -/
theorem AddAttribute_one_call_or_none (r : Option http.Request) (key value : String)
    (σ : World) :
    (∀ (r₀ : http.Request) (txn : newrelic.Transaction), r = some r₀ →
        r₀.Context.Value contextKey = .txn txn →
        AddAttribute r key value σ = txn.AddAttribute key value σ
        ∧ (AddAttribute r key value σ).trace = σ.trace ++ [.txnAddAttribute txn key value]
        ∧ (AddAttribute r key value σ).fresh = σ.fresh)
    ∧ ((r = none ∨ ∃ r₀, r = some r₀ ∧
          (r₀.Context.Binds contextKey = false ∨
            (r₀.Context.Binds contextKey = true ∧ ∀ t, r₀.Context.Value contextKey ≠ .txn t))) →
        AddAttribute r key value σ = σ) := by
  constructor
  · rintro r₀ txn rfl h
    rw [AddAttribute_of_txn r₀ txn key value σ h]
    exact ⟨rfl, rfl, rfl⟩
  · rintro (rfl | ⟨r₀, rfl, h⟩)
    · rfl
    · simp only [AddAttribute, lookup_none_of_absent_or_wrong_type r₀ h]

/-- Witness of C8: a traced request, a nil request, an empty context and a
context with a string under the key. -/
theorem AddAttribute_one_call_or_none_witness :
    (tracedRequest.Context.Value contextKey = .txn ⟨0⟩
      ∧ (AddAttribute (some tracedRequest) "user" "42" tracedWorld).trace
          = tracedWorld.trace ++ [.txnAddAttribute ⟨0⟩ "user" "42"])
    ∧ AddAttribute none "user" "42" startWorld = startWorld
    ∧ (plainRequest.Context.Binds contextKey = false
      ∧ AddAttribute (some plainRequest) "user" "42" startWorld = startWorld)
    ∧ (wrongTypeRequest.Context.Value contextKey = .str "yes"
      ∧ AddAttribute (some wrongTypeRequest) "user" "42" startWorld = startWorld) :=
  ⟨⟨rfl, ((AddAttribute_one_call_or_none (some tracedRequest) "user" "42" tracedWorld).1
      tracedRequest ⟨0⟩ rfl rfl).2.1⟩,
   (AddAttribute_one_call_or_none none "user" "42" startWorld).2 (Or.inl rfl),
   ⟨rfl, (AddAttribute_one_call_or_none (some plainRequest) "user" "42" startWorld).2
      (Or.inr ⟨plainRequest, rfl, Or.inl rfl⟩)⟩,
   ⟨rfl, (AddAttribute_one_call_or_none (some wrongTypeRequest) "user" "42" startWorld).2
      (Or.inr ⟨wrongTypeRequest, rfl, Or.inr ⟨rfl, by intro t h; cases h⟩⟩)⟩⟩

/-! ## C9: application construction -/

/-- C9: `NewNewrelicApplication(name, key)` returns an error exactly when the
agent's `NewApplication` does for the configuration built from `(name, key)`;
then the handle is nil and the error is the agent's error; otherwise the
handle is non-nil, wraps the agent's application, and the error is nil. -/
theorem NewNewrelicApplication_error_iff_backend_error
    (NewApplication : newrelic.Config → newrelic.Application × Option newrelic.Error)
    (name key : String) :
    ((NewNewrelicApplication NewApplication name key).2 ≠ none
        ↔ (NewApplication (newrelic.NewConfig name key)).2 ≠ none)
    ∧ (∀ e, (NewApplication (newrelic.NewConfig name key)).2 = some e →
        NewNewrelicApplication NewApplication name key = (none, some e))
    ∧ ((NewApplication (newrelic.NewConfig name key)).2 = none →
        NewNewrelicApplication NewApplication name key
          = (some { newrelic := (NewApplication (newrelic.NewConfig name key)).1 }, none))
    ∧ newrelic.NewConfig name key = { AppName := name, License := key } := by
  refine ⟨?_, ?_, ?_, rfl⟩ <;>
    rcases hb : NewApplication (newrelic.NewConfig name key) with ⟨nr, err⟩ <;>
    cases err <;> simp [NewNewrelicApplication, hb]

/-- Witness of C9: an agent that rejects an empty license and accepts any
other. -/
theorem NewNewrelicApplication_error_iff_backend_error_witness :
    ((strictAgent (newrelic.NewConfig "shop" "")).2 = some ⟨"license required"⟩
      ∧ NewNewrelicApplication strictAgent "shop" "" = (none, some ⟨"license required"⟩))
    ∧ ((strictAgent (newrelic.NewConfig "shop" "secret")).2 = none
      ∧ NewNewrelicApplication strictAgent "shop" "secret" = (some { newrelic := ⟨1⟩ }, none)) :=
  ⟨⟨rfl, (NewNewrelicApplication_error_iff_backend_error strictAgent "shop" "").2.1
      ⟨"license required"⟩ rfl⟩,
   ⟨rfl, (NewNewrelicApplication_error_iff_backend_error strictAgent "shop" "secret").2.2.1 rfl⟩⟩

/-! ## C10: the context key is a plain string -/

/-- C10 fails as stated: a request that never went through `Handler`, in whose
context another package stored a transaction-like value under the plain string
key `"newrelicTransaction"`, makes all four constructors return real segments
and makes `AddAttribute` call the backend. -/
theorem plain_string_key_collides :
    foreignRequest.Context
        = context.WithValue (context.WithValue .background (.str "requestID") (.str "r-1"))
            (.str "newrelicTransaction") (.txn ⟨7⟩)
    ∧ startWorld.trace = []
    ∧ (StartDatabaseSegment (some foreignRequest) "users" "SELECT" startWorld).1.isNop = false
    ∧ (StartRedisSegment (some foreignRequest) "GET" "user:42" startWorld).1.isNop = false
    ∧ (StartExternalSegment (some foreignRequest) (some outboundRequest) startWorld).1.isNop
        = false
    ∧ (StartSegment (some foreignRequest) "render" startWorld).1.isNop = false
    ∧ (AddAttribute (some foreignRequest) "user" "42" startWorld).trace
        = [.txnAddAttribute ⟨7⟩ "user" "42"] := by
  have hv : foreignRequest.Context.Value (.str "newrelicTransaction") = .txn ⟨7⟩ := rfl
  refine ⟨rfl, rfl, ?_, ?_, ?_, ?_, ?_⟩
  · rw [StartDatabaseSegment_of_txn _ _ _ _ _ hv]; rfl
  · rw [StartRedisSegment_of_txn _ _ _ _ _ hv]; rfl
  · rw [StartExternalSegment_of_txn _ _ _ _ hv]; rfl
  · rw [StartSegment_of_txn _ _ _ _ hv]; rfl
  · rw [AddAttribute_of_txn _ _ _ _ _ hv]; rfl

/-- C10, amended: let `v` be what the context of a non-nil request yields for
the plain string key `"newrelicTransaction"` (the innermost value stored under
it, whoever stored it).  `v` is resolved as the transaction exactly when it is
a transaction value.  If it is not, the four constructors return `NopSegment`
and `AddAttribute` leaves the world untouched.  If it is the transaction `t`,
the four constructors return the real datastore, external and generic
segments started on `t` with the metadata of their arguments, and
`AddAttribute` makes exactly the one call `t.AddAttribute`.  Storing under the
string key makes the stored value the one looked up; storing under any other
key, a defined-type key spelled the same included, does not change the
lookup. -/
theorem plain_string_key_resolution (r : http.Request) (v : Interface)
    (table operation key name attr value : String) (req : Option http.Request) (σ : World)
    (hv : r.Context.Value contextKey = v) :
    ((∀ t, v ≠ .txn t) →
        StartDatabaseSegment (some r) table operation σ = (.nop {}, σ)
        ∧ StartRedisSegment (some r) operation key σ = (.nop {}, σ)
        ∧ StartExternalSegment (some r) req σ = (.nop {}, σ)
        ∧ StartSegment (some r) name σ = (.nop {}, σ)
        ∧ AddAttribute (some r) attr value σ = σ)
    ∧ (∀ t, v = .txn t →
        StartDatabaseSegment (some r) table operation σ
            = (.datastore { s := { StartTime := { txn := t, stamp := σ.fresh }
                                   Product := .Postgres
                                   Collection := table
                                   Operation := operation
                                   ParameterizedQuery := ""
                                   QueryParameters := [] } },
               { trace := σ.trace ++ [.startSegmentNow t], fresh := σ.fresh + 1 })
        ∧ StartRedisSegment (some r) operation key σ
            = (.datastore { s := { StartTime := { txn := t, stamp := σ.fresh }
                                   Product := .Redis
                                   Collection := ""
                                   Operation := operation
                                   ParameterizedQuery := operation ++ " " ++ key
                                   QueryParameters := [("key", .str key)] } },
               { trace := σ.trace ++ [.startSegmentNow t], fresh := σ.fresh + 1 })
        ∧ StartExternalSegment (some r) req σ
            = (.external { s := { StartTime := { txn := t, stamp := σ.fresh }
                                  Request := req
                                  Response := none } },
               { trace := σ.trace ++ [.startSegmentNow t], fresh := σ.fresh + 1 })
        ∧ StartSegment (some r) name σ
            = (.generic { s := { StartTime := { txn := t, stamp := σ.fresh }
                                 Name := name } },
               { trace := σ.trace ++ [.startSegmentNow t], fresh := σ.fresh + 1 })
        ∧ AddAttribute (some r) attr value σ
            = { trace := σ.trace ++ [.txnAddAttribute t attr value], fresh := σ.fresh })
    ∧ ((StartDatabaseSegment (some r) table operation σ).1.isNop = true ↔ ∀ t, v ≠ .txn t)
    ∧ ((StartRedisSegment (some r) operation key σ).1.isNop = true ↔ ∀ t, v ≠ .txn t)
    ∧ ((StartExternalSegment (some r) req σ).1.isNop = true ↔ ∀ t, v ≠ .txn t)
    ∧ ((StartSegment (some r) name σ).1.isNop = true ↔ ∀ t, v ≠ .txn t)
    ∧ (AddAttribute (some r) attr value σ = σ ↔ ∀ t, v ≠ .txn t)
    ∧ (∀ (c : context.Context) (u : Interface),
        (context.WithValue c (.str "newrelicTransaction") u).Value contextKey = u)
    ∧ (∀ (c : context.Context) (k u : Interface), k ≠ contextKey →
        (context.WithValue c k u).Value contextKey = c.Value contextKey)
    ∧ (∀ (c : context.Context) (typeName spelling : String) (u : Interface),
        (context.WithValue c (.defined typeName spelling) u).Value contextKey
          = c.Value contextKey) := by
  have hv' : r.Context.Value (.str "newrelicTransaction") = v := hv
  have hnop : (∀ t, v ≠ .txn t) →
      (r.Context.Value (.str "newrelicTransaction")).assertTransaction = none := by
    intro hne; rw [hv']; exact (Interface.assertTransaction_eq_none_iff v).2 hne
  have hcases : (∀ t, v ≠ .txn t) ∨ ∃ t, v = .txn t := by
    cases v with
    | txn t => exact Or.inr ⟨t, rfl⟩
    | nil => exact Or.inl (by intro t h; cases h)
    | str _ => exact Or.inl (by intro t h; cases h)
    | int _ => exact Or.inl (by intro t h; cases h)
    | defined _ _ => exact Or.inl (by intro t h; cases h)
  refine ⟨?_, ?_, ?_, ?_, ?_, ?_, ?_, ?_, ?_, ?_⟩
  · intro hne
    have hl := hnop hne
    refine ⟨?_, ?_, ?_, ?_, ?_⟩
    · simp only [StartDatabaseSegment, hl]
    · simp only [StartRedisSegment, hl]
    · simp only [StartExternalSegment, hl]
    · simp only [StartSegment, hl]
    · simp only [AddAttribute, hl]
  · rintro t rfl
    exact ⟨StartDatabaseSegment_of_txn r t table operation σ hv',
      StartRedisSegment_of_txn r t operation key σ hv',
      StartExternalSegment_of_txn r t req σ hv', StartSegment_of_txn r t name σ hv',
      AddAttribute_of_txn r t attr value σ hv'⟩
  · rcases hcases with hne | ⟨t, rfl⟩
    · have e : StartDatabaseSegment (some r) table operation σ = (.nop {}, σ) := by
        simp only [StartDatabaseSegment, hnop hne]
      rw [e]
      exact ⟨fun _ => hne, fun _ => rfl⟩
    · rw [StartDatabaseSegment_of_txn r t table operation σ hv']
      exact ⟨fun h => (by cases h), fun h => absurd rfl (h t)⟩
  · rcases hcases with hne | ⟨t, rfl⟩
    · have e : StartRedisSegment (some r) operation key σ = (.nop {}, σ) := by
        simp only [StartRedisSegment, hnop hne]
      rw [e]
      exact ⟨fun _ => hne, fun _ => rfl⟩
    · rw [StartRedisSegment_of_txn r t operation key σ hv']
      exact ⟨fun h => (by cases h), fun h => absurd rfl (h t)⟩
  · rcases hcases with hne | ⟨t, rfl⟩
    · have e : StartExternalSegment (some r) req σ = (.nop {}, σ) := by
        simp only [StartExternalSegment, hnop hne]
      rw [e]
      exact ⟨fun _ => hne, fun _ => rfl⟩
    · rw [StartExternalSegment_of_txn r t req σ hv']
      exact ⟨fun h => (by cases h), fun h => absurd rfl (h t)⟩
  · rcases hcases with hne | ⟨t, rfl⟩
    · have e : StartSegment (some r) name σ = (.nop {}, σ) := by
        simp only [StartSegment, hnop hne]
      rw [e]
      exact ⟨fun _ => hne, fun _ => rfl⟩
    · rw [StartSegment_of_txn r t name σ hv']
      exact ⟨fun h => (by cases h), fun h => absurd rfl (h t)⟩
  · rcases hcases with hne | ⟨t, rfl⟩
    · have e : AddAttribute (some r) attr value σ = σ := by
        simp only [AddAttribute, hnop hne]
      exact ⟨fun _ => hne, fun _ => e⟩
    · rw [AddAttribute_of_txn r t attr value σ hv']
      refine ⟨fun h => ?_, fun h => absurd rfl (h t)⟩
      have hlen := congrArg (fun w => w.trace.length) h
      simp [newrelic.Transaction.AddAttribute, World.emit] at hlen
  · intro c u
    exact context.Context.Value_WithValue_same c _ u
  · intro c k u hk
    exact context.Context.Value_WithValue_other c k _ u hk
  · intro c typeName spelling u
    exact context.Context.Value_WithValue_other c _ _ u (by simp)

/-- Witness of C10, amended: a string stored under the key below a defined-type
key spelled the same is not resolved; a transaction value stored under the key
by another package is. -/
theorem plain_string_key_resolution_witness :
    (layeredRequest.Context.Value contextKey = .str "yes"
      ∧ StartDatabaseSegment (some layeredRequest) "users" "GET" startWorld
          = (.nop {}, startWorld)
      ∧ StartRedisSegment (some layeredRequest) "GET" "user:42" startWorld
          = (.nop {}, startWorld)
      ∧ StartExternalSegment (some layeredRequest) (some outboundRequest) startWorld
          = (.nop {}, startWorld)
      ∧ StartSegment (some layeredRequest) "render" startWorld = (.nop {}, startWorld)
      ∧ AddAttribute (some layeredRequest) "user" "42" startWorld = startWorld)
    ∧ (foreignRequest.Context.Value contextKey = .txn ⟨7⟩
      ∧ StartRedisSegment (some foreignRequest) "GET" "user:42" startWorld
          = (.datastore { s := { StartTime := { txn := ⟨7⟩, stamp := 0 }
                                 Product := .Redis
                                 Collection := ""
                                 Operation := "GET"
                                 ParameterizedQuery := "GET" ++ " " ++ "user:42"
                                 QueryParameters := [("key", .str "user:42")] } },
             { trace := startWorld.trace ++ [.startSegmentNow ⟨7⟩],
               fresh := startWorld.fresh + 1 })) :=
  ⟨⟨rfl, (plain_string_key_resolution layeredRequest (.str "yes") "users" "GET" "user:42"
      "render" "user" "42" (some outboundRequest) startWorld rfl).1 (by intro t h; cases h)⟩,
   ⟨rfl, ((plain_string_key_resolution foreignRequest (.txn ⟨7⟩) "users" "GET" "user:42"
      "render" "user" "42" (some outboundRequest) startWorld rfl).2.1 ⟨7⟩ rfl).2.1⟩⟩

end segments
